import Mathlib

/-!
Verification of the collection-reconciliation, endpoint-generation and
sync-orchestration logic of the frappe_postman_sync repository.

Each definition is a shallow embedding of the corresponding Python function
(file and function named in its doc comment).  JSON dictionaries that the
code only reads the "name" key of are embedded as trees whose remaining
keys are carried structurally (description, children).
-/

/-- One node of a Postman collection tree, as the sync code sees it: a JSON
object with an optional "name" key (folders and request items alike; the
code reads it with `item.get("name", "")`), a description, and a possibly
empty list of children (the "item" array).  Request leaves are nodes with no
children. -/
inductive PTree : Type where
  | node (name : Option String) (description : String) (children : List PTree)
  deriving Repr

/-- The merge key of a collection item: `item.get("name", "")` in
postman_setting.py — the value of the "name" key, with a missing key read as
the empty string. -/
def getName : PTree → String
  | .node n _ _ => n.getD ""

/-- `PostmanSetting._merge_collection_items_fast` (postman_setting.py,
lines 387-402): collect the names of the new items, keep every existing item
whose name is not among them (appending to an accumulator list, as the
Python loop does), then append all new items. -/
def merge_collection_items_fast (existing_items new_items : List PTree) : List PTree :=
  let new_folder_names : List String := new_items.map getName
  let final_items : List PTree :=
    existing_items.foldl
      (fun acc existing_item =>
        if getName existing_item ∈ new_folder_names then acc
        else acc ++ [existing_item])
      []
  final_items ++ new_items

/-- The append-to-accumulator loop of the merge is a filter. -/
lemma foldl_append_filter (p : PTree → Prop) [DecidablePred p] :
    ∀ (l acc : List PTree),
      l.foldl (fun acc x => if p x then acc else acc ++ [x]) acc
        = acc ++ l.filter (fun x => ¬ p x) := by
  intro l
  induction l with
  | nil => intro acc; simp
  | cons x xs ih =>
    intro acc
    by_cases hx : p x <;> simp [List.foldl_cons, hx, ih, List.filter_cons]

/-- Closed form of the merge: kept-existing (a filter, so in original
relative order) followed by the new items. -/
lemma merge_eq_filter_append (existing new : List PTree) :
    merge_collection_items_fast existing new
      = existing.filter (fun e => getName e ∉ new.map getName) ++ new := by
  simp only [merge_collection_items_fast]
  rw [foldl_append_filter (fun x => getName x ∈ new.map getName) existing []]
  simp

/-- C1: the merge returns the existing children whose name is not among the
names of the new folders, in their original relative order, followed by the
new folders in their given order; for name-disjoint inputs this is plain
concatenation, and merging an empty new list returns the existing children
unchanged. -/
theorem merge_collection_items_fast_spec (existing new : List PTree) :
    merge_collection_items_fast existing new
      = existing.filter (fun e => getName e ∉ new.map getName) ++ new
    ∧ ((∀ e ∈ existing, ∀ n ∈ new, getName e ≠ getName n) →
        merge_collection_items_fast existing new = existing ++ new)
    ∧ merge_collection_items_fast existing [] = existing := by
  refine ⟨merge_eq_filter_append existing new, ?_, ?_⟩
  · intro hdisj
    rw [merge_eq_filter_append]
    congr 1
    rw [List.filter_eq_self]
    intro e he
    simp only [decide_eq_true_eq, List.mem_map]
    rintro ⟨n, hn, hne⟩
    exact hdisj e he n hn hne.symm
  · rw [merge_eq_filter_append]
    simp

theorem merge_collection_items_fast_spec_witness :
    merge_collection_items_fast
        [PTree.node (some "A") "old folder A" []]
        [PTree.node (some "B") "new folder B" []]
      = [PTree.node (some "A") "old folder A" [],
         PTree.node (some "B") "new folder B" []] := by
  refine (merge_collection_items_fast_spec _ _).2.1 ?_
  intro e he n hn
  simp only [List.mem_singleton] at he hn
  subst he; subst hn
  simp [getName]

/-- The "name" key of a collection item, when the key is present. -/
def nameKey : PTree → Option String
  | .node n _ _ => n

lemma getName_eq_empty_iff (t : PTree) :
    getName t = "" ↔ (nameKey t = none ∨ nameKey t = some "") := by
  cases t with
  | node n d c =>
    cases n <;> simp [getName, nameKey]

/-- C3 counterexample: the merge does not enforce uniqueness of direct-child
names when the new items themselves repeat a name — two new folders both
named "B" survive side by side. -/
theorem merge_unique_names_counterexample :
    ¬ (((merge_collection_items_fast []
          [PTree.node (some "B") "one" [], PTree.node (some "B") "two" []]).map
            getName).Nodup) := by
  decide

/-- C3 amended: when the existing children and the new folders each have
pairwise-distinct names on their own, the merged children have
pairwise-distinct names — replacement, not rejection, resolves
existing-vs-new collisions. -/
theorem merge_unique_names (existing new : List PTree)
    (he : (existing.map getName).Nodup) (hn : (new.map getName).Nodup) :
    ((merge_collection_items_fast existing new).map getName).Nodup := by
  rw [merge_eq_filter_append, List.map_append, List.nodup_append]
  refine ⟨he.sublist ((List.filter_sublist existing).map getName), hn, ?_⟩
  intro a ha hb
  obtain ⟨x, hx, rfl⟩ := List.mem_map.mp ha
  have hpx := (List.mem_filter.mp hx).2
  simp only [decide_eq_true_eq] at hpx
  exact hpx hb

theorem merge_unique_names_witness :
    ((merge_collection_items_fast
        [PTree.node (some "A") "a" []]
        [PTree.node (some "B") "b" []]).map getName).Nodup :=
  merge_unique_names _ _ (by decide) (by decide)

/-- C6: the merge is idempotent in its second argument — re-merging the same
new folders into its own output changes nothing. -/
theorem merge_collection_items_fast_idempotent (existing new : List PTree) :
    merge_collection_items_fast (merge_collection_items_fast existing new) new
      = merge_collection_items_fast existing new := by
  rw [merge_eq_filter_append (merge_collection_items_fast existing new) new,
      merge_eq_filter_append existing new, List.filter_append]
  have h1 : (existing.filter (fun e => getName e ∉ new.map getName)).filter
        (fun e => getName e ∉ new.map getName)
      = existing.filter (fun e => getName e ∉ new.map getName) :=
    List.filter_eq_self.mpr (fun a ha => (List.mem_filter.mp ha).2)
  have h2 : new.filter (fun e => getName e ∉ new.map getName) = [] := by
    rw [List.filter_eq_nil_iff]
    intro a ha
    simp only [decide_eq_true_eq, Decidable.not_not]
    exact List.mem_map.mpr ⟨a, ha, rfl⟩
  rw [h1, h2, List.append_nil]

/-- C10: the merge identifies items solely by the value of their "name" key,
reading a missing key as the empty-string name: an existing item with a
missing or empty name (and not itself among the new items) is preserved
exactly when no new item has a missing or empty name. -/
theorem merge_nameless_spec (existing new : List PTree) (e : PTree)
    (he : e ∈ existing)
    (hname : nameKey e = none ∨ nameKey e = some "")
    (hnew : e ∉ new) :
    (e ∈ merge_collection_items_fast existing new
      ↔ ∀ n ∈ new, ¬ (nameKey n = none ∨ nameKey n = some "")) := by
  have hge : getName e = "" := (getName_eq_empty_iff e).mpr hname
  rw [merge_eq_filter_append, List.mem_append]
  constructor
  · rintro (hf | hf)
    · have hp := (List.mem_filter.mp hf).2
      simp only [decide_eq_true_eq, hge] at hp
      intro n hn hcontra
      exact hp (List.mem_map.mpr ⟨n, hn, ((getName_eq_empty_iff n).mpr hcontra).symm ▸ rfl⟩)
    · exact absurd hf hnew
  · intro hall
    left
    refine List.mem_filter.mpr ⟨he, ?_⟩
    simp only [decide_eq_true_eq, hge]
    intro hmem
    obtain ⟨n, hn, hne⟩ := List.mem_map.mp hmem
    exact hall n hn ((getName_eq_empty_iff n).mp hne)

theorem merge_nameless_spec_witness :
    PTree.node none "kept nameless item" []
      ∈ merge_collection_items_fast
          [PTree.node none "kept nameless item" []]
          [PTree.node (some "B") "new folder" []] := by
  refine (merge_nameless_spec _ _ _ ?_ ?_ ?_).mpr ?_
  · simp
  · exact Or.inl rfl
  · simp [PTree.node.injEq]
  · intro n hn
    simp only [List.mem_singleton] at hn
    subst hn
    simp [nameKey]

/-- One parameter entry of an endpoint descriptor (api_generator.py): the
dicts carry "name", "type" ("query" / "path" / "body"), "description" and an
optional "required" flag (absent on some entries). -/
structure EndpointParam where
  param_name : String
  param_type : String
  param_description : String
  required : Option Bool := none
  deriving Repr, DecidableEq

/-- One endpoint descriptor dict as built by api_generator.py: method, path,
description, parameters, plus the optional custom-method markers. -/
structure Endpoint where
  method : String
  path : String
  description : String
  parameters : List EndpointParam := []
  custom_method : Bool := false
  method_name : Option String := none
  deriving Repr, DecidableEq

/-- `APIGenerator.build_crud_endpoints` (api_generator.py, lines 96-213),
restricted to the fixed list built before whitelisted custom methods are
appended (the `endpoints = [...]` literal).  Note that the Python f-string
`{{name}}` renders as the single-brace placeholder `{name}` in the stored
path. -/
def build_crud_endpoints_standard (doctype_name : String) : List Endpoint :=
  [ { method := "GET",
      path := "/api/resource/" ++ doctype_name,
      description := "Get list of " ++ doctype_name ++ " records",
      parameters :=
        [ ⟨"filters", "query", "JSON filters", none⟩,
          ⟨"fields", "query", "Fields to fetch", none⟩,
          ⟨"limit_page_length", "query", "Number of records per page", none⟩,
          ⟨"limit_start", "query", "Starting record number", none⟩ ] },
    { method := "GET",
      path := "/api/resource/" ++ doctype_name ++ "/{name}",
      description := "Get specific " ++ doctype_name ++ " record by name",
      parameters := [ ⟨"name", "path", "Document name", some true⟩ ] },
    { method := "POST",
      path := "/api/resource/" ++ doctype_name,
      description := "Create new " ++ doctype_name ++ " record",
      parameters := [ ⟨"body", "body", "Document data", some true⟩ ] },
    { method := "PUT",
      path := "/api/resource/" ++ doctype_name ++ "/{name}",
      description := "Update existing " ++ doctype_name ++ " record",
      parameters :=
        [ ⟨"name", "path", "Document name", some true⟩,
          ⟨"body", "body", "Updated document data", some true⟩ ] },
    { method := "DELETE",
      path := "/api/resource/" ++ doctype_name ++ "/{name}",
      description := "Delete " ++ doctype_name ++ " record",
      parameters := [ ⟨"name", "path", "Document name", some true⟩ ] },
    { method := "GET",
      path := "/api/method/frappe.desk.reportview.get",
      description := "Get " ++ doctype_name ++ " records with advanced filtering",
      parameters :=
        [ ⟨"doctype", "query", "DocType name", some true⟩,
          ⟨"filters", "query", "JSON filters", none⟩,
          ⟨"fields", "query", "Fields to fetch", none⟩,
          ⟨"order_by", "query", "Order by field", none⟩ ] } ]

/-- `APIGenerator.build_crud_endpoints` including the appended whitelisted
custom methods (`endpoints.extend(whitelisted_methods)`). -/
def build_crud_endpoints (doctype_name : String)
    (whitelisted_methods : List Endpoint) : List Endpoint :=
  build_crud_endpoints_standard doctype_name ++ whitelisted_methods

/-- C4: for every record-type name, the builder emits exactly 6 standard
descriptors before custom methods are appended, in the fixed order
List / Get-by-id / Create / Update / Delete / Advanced-query, with the
stated methods and paths (single-brace `{name}` placeholder, generic
report-view path). -/
theorem build_crud_endpoints_standard_spec (t : String) :
    (build_crud_endpoints_standard t).length = 6
    ∧ (build_crud_endpoints_standard t).map (fun e => (e.method, e.path))
        = [("GET", "/api/resource/" ++ t),
           ("GET", "/api/resource/" ++ t ++ "/{name}"),
           ("POST", "/api/resource/" ++ t),
           ("PUT", "/api/resource/" ++ t ++ "/{name}"),
           ("DELETE", "/api/resource/" ++ t ++ "/{name}"),
           ("GET", "/api/method/frappe.desk.reportview.get")]
    ∧ (∀ ws, build_crud_endpoints t ws = build_crud_endpoints_standard t ++ ws)
    ∧ (∀ e ∈ build_crud_endpoints_standard t, e.custom_method = false) := by
  refine ⟨rfl, rfl, fun ws => rfl, ?_⟩
  intro e he
  simp only [build_crud_endpoints_standard, List.mem_cons, List.mem_singleton,
    List.not_mem_nil, or_false] at he
  rcases he with h | h | h | h | h | h <;> subst h <;> rfl

/-- Does the pattern occur as a contiguous run somewhere in the list? -/
def hasInfix (pat : List Char) : List Char → Bool
  | [] => pat.isEmpty
  | c :: rest => pat.isPrefixOf (c :: rest) || hasInfix pat rest

/-- Python substring test `pat in s`. -/
def strContains (s pat : String) : Bool := hasInfix pat.data s.data

/-- A regex word character, as matched by the `\w` class in the naming
fallback of build_postman_item. -/
def isWordChar (c : Char) : Bool := c.isAlphanum || c = '_'

/-- Python `str.title()` restricted to its effect on the matched variable
names: a letter that follows a letter is lowercased, a letter that follows a
non-letter (or starts the string) is uppercased. -/
def pyTitleGo : Bool → List Char → List Char
  | _, [] => []
  | prevCased, c :: cs =>
    if c.isAlpha then
      (if prevCased then c.toLower else c.toUpper) :: pyTitleGo true cs
    else
      c :: pyTitleGo false cs

def pyTitle (s : String) : String := String.mk (pyTitleGo false s.data)

/-- The first match of the pattern `\{\{(\w+)\}\}` used by the naming
fallback of build_postman_item: scan left to right; at a double opening
brace take the longest run of word characters and require a double closing
brace, otherwise resume the scan one character further on. -/
def findTemplateVar : List Char → Option String
  | [] => none
  | c :: cs =>
    if c = '{' then
      match cs with
      | c2 :: cs2 =>
        if c2 = '{' then
          let w := cs2.takeWhile isWordChar
          if w ≠ [] ∧ (cs2.drop w.length).take 2 = ['}', '}'] then
            some (String.mk w)
          else findTemplateVar cs
        else findTemplateVar cs
      | [] => none
    else findTemplateVar cs

/-- The item-naming logic of `PostmanSetting.build_postman_item`
(postman_setting.py, lines 447-482): custom methods are named from the
method name; otherwise an if/elif chain on the HTTP method and the path
shape picks the label.  Note the chain tests the literal double-brace
`{{name}}` marker, and the `reportview` test comes after all five standard
method branches. -/
def build_postman_item_name (endpoint : Endpoint) (doctype_name : String) : String :=
  if endpoint.custom_method then
    endpoint.method ++ " " ++ (endpoint.method_name.getD "Custom Method")
  else
    let method := endpoint.method
    let path := endpoint.path
    if method = "GET" ∧ strContains path "{{name}}" = true then
      doctype_name ++ " by ID"
    else if method = "GET" ∧ ¬ strContains path "{{name}}" = true then
      "List " ++ doctype_name ++ " Records"
    else if method = "POST" then
      "Create " ++ doctype_name ++ " Record"
    else if method = "PUT" then
      "Update " ++ doctype_name ++ " Record"
    else if method = "DELETE" then
      "Delete " ++ doctype_name ++ " Record"
    else if method = "PATCH" then
      "Patch " ++ doctype_name ++ " Record"
    else if strContains path "reportview" = true then
      "Advanced " ++ doctype_name ++ " Query"
    else
      match findTemplateVar path.data with
      | some v => doctype_name ++ " by " ++ pyTitle v
      | none => method ++ " " ++ doctype_name ++ " Operation"

/-- C5 counterexample: the renderer names the generated get-by-id
descriptor (a GET whose path contains the single-brace placeholder
`{name}`) "List Invoice Records", not "Invoice by ID", because the chain
tests for the double-brace marker; and it names the advanced-query
descriptor (a GET whose path contains "reportview") "List Invoice Records",
not "Advanced Invoice Query", because the reportview branch sits after the
GET branches. -/
theorem build_postman_item_name_counterexample :
    build_postman_item_name
        { method := "GET", path := "/api/resource/Invoice/{name}",
          description := "Get specific Invoice record by name" } "Invoice"
      = "List Invoice Records"
    ∧ strContains "/api/resource/Invoice/{name}" "{name}" = true
    ∧ ("List Invoice Records" = "Invoice by ID" → False)
    ∧ build_postman_item_name
        { method := "GET", path := "/api/method/frappe.desk.reportview.get",
          description := "Get Invoice records with advanced filtering" } "Invoice"
      = "List Invoice Records"
    ∧ strContains "/api/method/frappe.desk.reportview.get" "reportview" = true
    ∧ ("List Invoice Records" = "Advanced Invoice Query" → False) := by
  refine ⟨rfl, rfl, ?_, rfl, rfl, ?_⟩ <;> decide

/-- C5 amended: for a non-custom descriptor the renderer names a GET whose
path contains the double-brace marker `{{name}}` "<Type> by ID", any other
GET "List <Type> Records" (including the advanced-query GET), a POST
"Create <Type> Record", and uses "Advanced <Type> Query" for a path
containing "reportview" only when the method is none of
GET/POST/PUT/DELETE/PATCH. -/
theorem build_postman_item_name_spec (e : Endpoint) (t : String)
    (hc : e.custom_method = false) :
    (e.method = "GET" → strContains e.path "{{name}}" = true →
        build_postman_item_name e t = t ++ " by ID")
    ∧ (e.method = "GET" → strContains e.path "{{name}}" = false →
        build_postman_item_name e t = "List " ++ t ++ " Records")
    ∧ (e.method = "POST" → build_postman_item_name e t = "Create " ++ t ++ " Record")
    ∧ (e.method ≠ "GET" → e.method ≠ "POST" → e.method ≠ "PUT" →
        e.method ≠ "DELETE" → e.method ≠ "PATCH" →
        strContains e.path "reportview" = true →
        build_postman_item_name e t = "Advanced " ++ t ++ " Query") := by
  unfold build_postman_item_name
  rw [hc]
  refine ⟨?_, ?_, ?_, ?_⟩
  · intro hm hp
    simp [hm, hp]
  · intro hm hp
    simp [hm, hp]
  · intro hm
    simp [hm]
  · intro h1 h2 h3 h4 h5 hp
    simp [h1, h2, h3, h4, h5, hp]

theorem build_postman_item_name_spec_witness :
    build_postman_item_name
        { method := "POST", path := "/api/resource/Invoice",
          description := "Create new Invoice record" } "Invoice"
      = "Create Invoice Record" :=
  (build_postman_item_name_spec _ "Invoice" rfl).2.2.1 rfl

theorem build_crud_endpoints_standard_spec_witness :
    (build_crud_endpoints_standard "Invoice").length = 6
    ∧ build_crud_endpoints "Invoice" []
        = build_crud_endpoints_standard "Invoice" ++ []
    ∧ ((build_crud_endpoints_standard "Invoice").get
        ⟨0, by decide⟩).custom_method = false :=
  ⟨(build_crud_endpoints_standard_spec "Invoice").1,
   (build_crud_endpoints_standard_spec "Invoice").2.2.1 [],
   (build_crud_endpoints_standard_spec "Invoice").2.2.2 _
     (List.get_mem _ _ _)⟩

/-- A JSON value as placed into the request-body template by
`get_doctype_fields_template`: the code emits strings, the integer 0, the
float 0.0, an empty list (Table fields) or the fixed geolocation object
(with latitude and longitude 0.0). -/
inductive PyValue : Type where
  | str (s : String)
  | int (n : Int)
  | float (n : Int)
  | emptyList
  | geolocation
  deriving Repr, DecidableEq

/-- One entry of `doctype_meta.fields` as read by
`get_doctype_fields_template`: field name, field type, read-only flag. -/
structure DocField where
  fieldname : String
  fieldtype : String
  read_only : Bool
  deriving Repr, DecidableEq

/-- Python dict assignment `d[k] = v`: replace the value in place if the key
exists, else append the key at the end (insertion order preserved). -/
def dictSet : List (String × PyValue) → String → PyValue → List (String × PyValue)
  | [], k, v => [(k, v)]
  | (k', v') :: rest, k, v =>
    if k' = k then (k, v) :: rest else (k', v') :: dictSet rest k v

/-- Python dict lookup `d.get(k)`. -/
def dictGet : List (String × PyValue) → String → Option PyValue
  | [], _ => none
  | (k', v) :: rest, k => if k' = k then some v else dictGet rest k

/-- The `excluded_fieldtypes` literal of `get_doctype_fields_template`
(postman_setting.py, lines 594-600). -/
def excluded_fieldtypes : List String :=
  ["Section Break", "Column Break", "Tab Break", "HTML", "Button"]

/-- The `excluded_fieldnames` literal of `get_doctype_fields_template`
(postman_setting.py, lines 603-658). -/
def excluded_fieldnames : List String :=
  ["creation", "modified", "modified_by", "owner", "docstatus", "idx",
   "amended_from", "creation_date", "modified_date",
   "user", "user_type", "last_login", "login_after", "logout_time",
   "last_ip", "last_login_ip", "api_key", "api_secret",
   "read_only", "naming_series", "parent", "parenttype", "parentfield",
   "is_system_generated", "version", "old_parent", "lft", "rgt",
   "is_group", "is_folder", "is_home_folder", "is_public", "is_default",
   "is_active", "disabled", "enabled", "hidden", "sort_order", "order_by",
   "group_by", "color", "icon", "css_class", "custom_css", "javascript",
   "workflow_state", "workflow_action", "workflow_comment",
   "workflow_comment_by", "workflow_comment_date", "workflow_comment_time"]

/-- The per-field inclusion test of the template loop: field type not in the
structural denylist, field name not in the system-managed denylist, and not
read-only. -/
def include_field (f : DocField) : Bool :=
  decide (f.fieldtype ∉ excluded_fieldtypes)
    && decide (f.fieldname ∉ excluded_fieldnames)
    && !f.read_only

/-- The if/elif chain assigning a default body value per field type
(postman_setting.py, lines 669-725); the final else defaults to the empty
string. -/
def default_value_for (fieldtype : String) : PyValue :=
  match fieldtype with
  | "Data" => .str ""
  | "Text" => .str ""
  | "Small Text" => .str ""
  | "Long Text" => .str ""
  | "Int" => .int 0
  | "Float" => .float 0
  | "Currency" => .float 0
  | "Percent" => .float 0
  | "Check" => .int 0
  | "Select" => .str ""
  | "Link" => .str ""
  | "Dynamic Link" => .str ""
  | "Date" => .str ""
  | "Datetime" => .str ""
  | "Time" => .str ""
  | "Table" => .emptyList
  | "Attach" => .str ""
  | "Attach Image" => .str ""
  | "Barcode" => .str ""
  | "Code" => .str ""
  | "Color" => .str ""
  | "Geolocation" => .geolocation
  | "Duration" => .int 0
  | "Rating" => .int 0
  | "Signature" => .str ""
  | "Password" => .str ""
  | "Read Only" => .str ""
  | _ => .str ""

/-- The `for field in doctype_meta.fields` loop of
`get_doctype_fields_template`. -/
def applyFields : List (String × PyValue) → List DocField → List (String × PyValue)
  | tmpl, [] => tmpl
  | tmpl, f :: rest =>
    applyFields
      (if include_field f then dictSet tmpl f.fieldname (default_value_for f.fieldtype)
       else tmpl)
      rest

/-- `PostmanSetting.get_doctype_fields_template` (postman_setting.py, lines
574-741), success path: start from the essential keys "doctype" and "name",
then add one typed default per included field. -/
def get_doctype_fields_template (doctype_name : String)
    (fields : List DocField) : List (String × PyValue) :=
  applyFields (dictSet (dictSet [] "doctype" (.str doctype_name)) "name" (.str ""))
    fields

lemma dictGet_dictSet_self (d : List (String × PyValue)) (k : String) (v : PyValue) :
    dictGet (dictSet d k v) k = some v := by
  induction d with
  | nil => simp [dictSet, dictGet]
  | cons p rest ih =>
    by_cases h : p.1 = k <;> simp [dictSet, dictGet, h, ih]

lemma dictGet_dictSet_ne (d : List (String × PyValue)) (k k' : String) (v : PyValue)
    (h : k ≠ k') : dictGet (dictSet d k v) k' = dictGet d k' := by
  induction d with
  | nil => simp [dictSet, dictGet, h]
  | cons p rest ih =>
    by_cases hp : p.1 = k
    · simp [dictSet, dictGet, hp, h]
    · simp [dictSet, dictGet, hp, ih]

lemma dictSet_cons_eq (k k0 : String) (v v0 : PyValue)
    (rest : List (String × PyValue)) (h : k0 = k) :
    dictSet ((k0, v0) :: rest) k v = (k, v) :: rest := by
  simp [dictSet, h]

lemma dictSet_cons_ne (k k0 : String) (v v0 : PyValue)
    (rest : List (String × PyValue)) (h : ¬ k0 = k) :
    dictSet ((k0, v0) :: rest) k v = (k0, v0) :: dictSet rest k v := by
  simp [dictSet, h]

lemma mem_keys_dictSet (d : List (String × PyValue)) (k a : String) (v : PyValue) :
    a ∈ (dictSet d k v).map Prod.fst ↔ a = k ∨ a ∈ d.map Prod.fst := by
  induction d with
  | nil => simp [dictSet]
  | cons p rest ih =>
    obtain ⟨k0, v0⟩ := p
    by_cases hp : k0 = k
    · subst hp
      rw [dictSet_cons_eq _ _ _ _ _ rfl]
      simp only [List.map_cons, List.mem_cons]
      constructor
      · rintro (hk | hk)
        · exact Or.inl hk
        · exact Or.inr (Or.inr hk)
      · rintro (hk | hk | hk)
        · exact Or.inl hk
        · exact Or.inl hk
        · exact Or.inr hk
    · rw [dictSet_cons_ne _ _ _ _ _ hp]
      simp only [List.map_cons, List.mem_cons, ih]
      constructor
      · rintro (hk | hk | hk)
        · exact Or.inr (Or.inl hk)
        · exact Or.inl hk
        · exact Or.inr (Or.inr hk)
      · rintro (hk | hk | hk)
        · exact Or.inr (Or.inl hk)
        · exact Or.inl hk
        · exact Or.inr (Or.inr hk)

lemma dictGet_applyFields_of_no_set (fields : List DocField) :
    ∀ (tmpl : List (String × PyValue)) (k : String),
      (∀ f ∈ fields, include_field f = true → f.fieldname ≠ k) →
      dictGet (applyFields tmpl fields) k = dictGet tmpl k := by
  induction fields with
  | nil => intro tmpl k _; rfl
  | cons f rest ih =>
    intro tmpl k h
    by_cases hf : include_field f = true
    · have hne : f.fieldname ≠ k := h f (List.mem_cons_self f rest) hf
      simp only [applyFields, hf, if_true]
      rw [ih _ k (fun g hg => h g (List.mem_cons_of_mem f hg)),
        dictGet_dictSet_ne _ _ _ _ hne]
    · simp only [applyFields, hf, if_false]
      exact ih _ k (fun g hg => h g (List.mem_cons_of_mem f hg))

lemma mem_keys_applyFields (fields : List DocField) :
    ∀ (tmpl : List (String × PyValue)) (k : String),
      (k ∈ (applyFields tmpl fields).map Prod.fst
        ↔ k ∈ tmpl.map Prod.fst
          ∨ ∃ f ∈ fields, include_field f = true ∧ f.fieldname = k) := by
  induction fields with
  | nil => intro tmpl k; simp [applyFields]
  | cons f rest ih =>
    intro tmpl k
    by_cases hf : include_field f = true
    · simp only [applyFields, hf, if_true]
      rw [ih]
      rw [mem_keys_dictSet]
      constructor
      · rintro ((hk | hk) | hk)
        · exact Or.inr ⟨f, List.mem_cons_self f rest, hf, hk.symm⟩
        · exact Or.inl hk
        · obtain ⟨g, hg, hig, hgk⟩ := hk
          exact Or.inr ⟨g, List.mem_cons_of_mem f hg, hig, hgk⟩
      · rintro (hk | ⟨g, hg, hig, hgk⟩)
        · exact Or.inl (Or.inr hk)
        · rcases List.mem_cons.mp hg with rfl | hg'
          · exact Or.inl (Or.inl hgk.symm)
          · exact Or.inr ⟨g, hg', hig, hgk⟩
    · simp only [applyFields, hf, if_false]
      rw [ih]
      constructor
      · rintro (hk | ⟨g, hg, hig, hgk⟩)
        · exact Or.inl hk
        · exact Or.inr ⟨g, List.mem_cons_of_mem f hg, hig, hgk⟩
      · rintro (hk | ⟨g, hg, hig, hgk⟩)
        · exact Or.inl hk
        · rcases List.mem_cons.mp hg with rfl | hg'
          · exact absurd hig hf
          · exact Or.inr ⟨g, hg', hig, hgk⟩

lemma dictGet_applyFields_included (fields : List DocField) :
    ∀ (tmpl : List (String × PyValue)) (f : DocField),
      f ∈ fields → include_field f = true →
      (fields.map DocField.fieldname).Nodup →
      dictGet (applyFields tmpl fields) f.fieldname
        = some (default_value_for f.fieldtype) := by
  induction fields with
  | nil => intro _ f hf; exact absurd hf (List.not_mem_nil f)
  | cons g rest ih =>
    intro tmpl f hf hinc hnodup
    rcases List.mem_cons.mp hf with rfl | hf'
    · simp only [applyFields, hinc, if_true]
      have hnotin : ∀ h ∈ rest, include_field h = true → h.fieldname ≠ f.fieldname := by
        intro h hh _
        have := (List.nodup_cons.mp hnodup).1
        intro hcontra
        exact this (hcontra ▸ List.mem_map.mpr ⟨h, hh, rfl⟩)
      rw [dictGet_applyFields_of_no_set rest _ _ hnotin, dictGet_dictSet_self]
    · by_cases hg : include_field g = true <;>
        simp only [applyFields, hg, if_true, if_false] <;>
        exact ih _ f hf' hinc (List.nodup_cons.mp hnodup).2

/-- C7 counterexample: the template always carries the essential keys
"doctype" and "name", so (a) an excluded (here read-only) field named
"name" is not absent from the template — its key is present — and (b) with
two same-named fields, one read-only and one included, the key of the
read-only field is present as well. -/
theorem get_doctype_fields_template_counterexample :
    ((DocField.mk "name" "Data" true).read_only = true
      ∧ "name" ∈ (get_doctype_fields_template "Invoice"
            [DocField.mk "name" "Data" true]).map Prod.fst)
    ∧ ((DocField.mk "amount" "Float" true).read_only = true
      ∧ "amount" ∈ (get_doctype_fields_template "Invoice"
            [DocField.mk "amount" "Float" true,
             DocField.mk "amount" "Float" false]).map Prod.fst) := by
  decide

/-- C7 amended: over a schema whose field names are pairwise distinct, the
template maps every included Int field to 0, every included
Float/Currency/Percent field to 0.0, every included Check field to 0, and
contains no key for a field in either denylist or marked read-only —
except for the always-present essential keys "doctype" and "name", which
remain even when a field with that name is excluded. -/
theorem get_doctype_fields_template_spec (t : String) (fields : List DocField)
    (hnodup : (fields.map DocField.fieldname).Nodup) :
    (∀ f ∈ fields, include_field f = true → f.fieldtype = "Int" →
        dictGet (get_doctype_fields_template t fields) f.fieldname
          = some (PyValue.int 0))
    ∧ (∀ f ∈ fields, include_field f = true →
        (f.fieldtype = "Float" ∨ f.fieldtype = "Currency" ∨ f.fieldtype = "Percent") →
        dictGet (get_doctype_fields_template t fields) f.fieldname
          = some (PyValue.float 0))
    ∧ (∀ f ∈ fields, include_field f = true → f.fieldtype = "Check" →
        dictGet (get_doctype_fields_template t fields) f.fieldname
          = some (PyValue.int 0))
    ∧ (∀ f ∈ fields,
        (f.fieldtype ∈ excluded_fieldtypes ∨ f.fieldname ∈ excluded_fieldnames
          ∨ f.read_only = true) →
        f.fieldname ≠ "doctype" → f.fieldname ≠ "name" →
        f.fieldname ∉ (get_doctype_fields_template t fields).map Prod.fst) := by
  have hlook : ∀ f ∈ fields, include_field f = true →
      dictGet (get_doctype_fields_template t fields) f.fieldname
        = some (default_value_for f.fieldtype) := by
    intro f hf hinc
    exact dictGet_applyFields_included fields _ f hf hinc hnodup
  refine ⟨?_, ?_, ?_, ?_⟩
  · intro f hf hinc hft
    rw [hlook f hf hinc, hft]
    decide
  · intro f hf hinc hft
    rw [hlook f hf hinc]
    rcases hft with h | h | h <;> rw [h] <;> decide
  · intro f hf hinc hft
    rw [hlook f hf hinc, hft]
    decide
  · intro f hf hexc hnd hnn
    have hninc : ¬ include_field f = true := by
      rcases hexc with h | h | h <;> simp [include_field, h]
    intro hmem
    rw [get_doctype_fields_template, mem_keys_applyFields] at hmem
    rcases hmem with hk | ⟨g, hg, hig, hgk⟩
    · rw [show dictSet (dictSet [] "doctype" (.str t)) "name" (.str "")
          = [("doctype", PyValue.str t), ("name", PyValue.str "")] from by
            simp [dictSet]] at hk
      simp only [List.map_cons, List.map_nil, List.mem_cons,
        List.not_mem_nil, or_false] at hk
      rcases hk with hk | hk
      · exact hnd hk
      · exact hnn hk
    · have : g = f := List.inj_on_of_nodup_map hnodup hg hf hgk
      rw [this] at hig
      exact hninc hig

/-- A small concrete schema used to instantiate the template theorem. -/
def sample_fields : List DocField :=
  [⟨"qty", "Int", false⟩, ⟨"rate", "Currency", false⟩,
   ⟨"is_paid", "Check", false⟩, ⟨"creation", "Data", false⟩]

theorem get_doctype_fields_template_spec_witness :
    dictGet (get_doctype_fields_template "Invoice" sample_fields) "qty"
      = some (PyValue.int 0)
    ∧ dictGet (get_doctype_fields_template "Invoice" sample_fields) "rate"
      = some (PyValue.float 0)
    ∧ dictGet (get_doctype_fields_template "Invoice" sample_fields) "is_paid"
      = some (PyValue.int 0)
    ∧ "creation" ∉ (get_doctype_fields_template "Invoice" sample_fields).map
        Prod.fst := by
  have h := get_doctype_fields_template_spec "Invoice" sample_fields (by decide)
  refine ⟨h.1 ⟨"qty", "Int", false⟩ (by decide) (by decide) rfl,
          h.2.1 ⟨"rate", "Currency", false⟩ (by decide) (by decide) (Or.inr (Or.inl rfl)),
          h.2.2.1 ⟨"is_paid", "Check", false⟩ (by decide) (by decide) rfl,
          h.2.2.2 ⟨"creation", "Data", false⟩ (by decide) ?_ (by decide) (by decide)⟩
  exact Or.inr (Or.inl (by decide))

/-- One remote HTTP call of the sync code, as recorded in the trace: a GET
of the collection, or a PUT writing the given top-level item list back. -/
inductive RemoteCall : Type where
  | get
  | put (items : List PTree)
  deriving Repr

/-- The parsed response of a successful remote call: HTTP status, response
text, and — for a collection GET — the top-level "item" array of the
returned collection. -/
structure HttpResult where
  status : Nat
  text : String
  collection_items : List PTree
  deriving Repr

/-- Observable state threaded through the sync functions: the ordered trace
of remote calls issued, the frappe.log_error entries, and the
frappe.msgprint messages. -/
structure SyncState where
  calls : List RemoteCall
  logs : List String
  msgs : List String
  deriving Repr

def init_state : SyncState := ⟨[], [], []⟩

def log_error (msg : String) (s : SyncState) : SyncState :=
  { s with logs := s.logs ++ [msg] }

def msgprint (msg : String) (s : SyncState) : SyncState :=
  { s with msgs := s.msgs ++ [msg] }

/-- The `api_endpoints` payload of an API Generator record: a flat endpoint
list for Single DocType generation, or a dict keyed by doctype name for
Entire Module generation. -/
inductive ApiEndpoints : Type where
  | single (endpoints : List Endpoint)
  | moduleDict (per_doctype : List (String × List Endpoint))
  deriving Repr

/-- The fields of an API Generator record read by the sync code. -/
structure ApiGen where
  doctype_name : String
  generation_type : String
  module_name : Option String
  collection_title : Option String
  api_endpoints : ApiEndpoints
  deriving Repr

/-- The environment a sync run executes against: the outcome of the n-th
remote call of the run (an exception such as a timeout, or a parsed
response), the result of the frappe.get_all fetching active generators, and
the outcome of self.save(). -/
structure SyncEnv : Type where
  http : Nat → Except String HttpResult
  generators : Except String (List ApiGen)
  save_res : Except String Unit

/-- `requests.get(url, ...)`: record the call, consume the environment
outcome for this call position. -/
def do_get (env : SyncEnv) (s : SyncState) :
    SyncState × Except String HttpResult :=
  ({ s with calls := s.calls ++ [RemoteCall.get] }, env.http s.calls.length)

/-- `requests.put(url, ..., json=payload, ...)`. -/
def do_put (env : SyncEnv) (payload : List PTree) (s : SyncState) :
    SyncState × Except String HttpResult :=
  ({ s with calls := s.calls ++ [RemoteCall.put payload] }, env.http s.calls.length)

/-- `try: ... except Exception as e: frappe.log_error(tag + e)` — the
blanket handler every sync step is wrapped in: an exception raised by the
body is logged and swallowed. -/
def try_log (tag : String) (r : SyncState × Except String Unit) :
    SyncState × Except String Unit :=
  match r with
  | (s, Except.ok u) => (s, Except.ok u)
  | (s, Except.error e) => (log_error (tag ++ e) s, Except.ok ())

/-- A collection item of build_postman_item, embedded by its rendered name
(the request payload below the name is never read again by the sync code). -/
def build_item_node (endpoint : Endpoint) (doctype_name : String) : PTree :=
  .node (some (build_postman_item_name endpoint doctype_name))
    ("Auto-generated API for " ++ doctype_name ++ " doctype") []

/-- The per-DocType folder literal built by the sync loops. -/
def build_doctype_folder (doctype_name : String) (endpoints : List Endpoint) : PTree :=
  .node (some doctype_name) ("APIs for " ++ doctype_name ++ " DocType")
    (endpoints.map (fun e => build_item_node e doctype_name))

/-- `PostmanSetting._build_collection_items_fast` (postman_setting.py,
lines 326-385): Entire Module generation wraps per-DocType folders in one
module folder when a usable module name is present (truthy and not
"Unknown Module"), otherwise emits the DocType folders directly; Single
DocType generation emits one DocType folder.  A payload of the wrong shape
for the generation type makes the Python loop raise, embedded as an
error. -/
def build_collection_items_fast (g : ApiGen) : Except String (List PTree) :=
  if g.generation_type = "Entire Module" then
    match g.api_endpoints with
    | .moduleDict d =>
      Except.ok
        (match g.module_name with
         | some m =>
           if m ≠ "" ∧ m ≠ "Unknown Module" then
             [.node (some (m ++ " Module")) ("APIs for " ++ m ++ " module")
                (d.map (fun p => build_doctype_folder p.1 p.2))]
           else
             d.map (fun p => build_doctype_folder p.1 p.2)
         | none => d.map (fun p => build_doctype_folder p.1 p.2))
    | .single _ => Except.error "AttributeError: list has no attribute items"
  else
    match g.api_endpoints with
    | .single eps => Except.ok [build_doctype_folder g.doctype_name eps]
    | .moduleDict _ => Except.error "TypeError: string indices must be integers"

/-- Body of `PostmanSetting.update_postman_collection_name`
(postman_setting.py, lines 220-259): GET the collection; on non-200 log and
return; otherwise PUT it back with the renamed info block. -/
def update_collection_name_body (env : SyncEnv) (title : String) (s : SyncState) :
    SyncState × Except String Unit :=
  match do_get env s with
  | (s, Except.error e) => (s, Except.error e)
  | (s, Except.ok resp) =>
    if resp.status ≠ 200 then
      (log_error ("Failed to fetch collection for name update: " ++ resp.text) s,
       Except.ok ())
    else
      match do_put env resp.collection_items s with
      | (s, Except.error e) => (s, Except.error e)
      | (s, Except.ok upd) =>
        if ¬ (upd.status = 200 ∨ upd.status = 201) then
          (log_error ("Failed to update collection name: " ++ upd.text) s,
           Except.ok ())
        else
          (msgprint ("Updated Postman collection name to: " ++ title) s,
           Except.ok ())

def update_postman_collection_name (env : SyncEnv) (title : String)
    (s : SyncState) : SyncState × Except String Unit :=
  try_log "Error updating Postman collection name: "
    (update_collection_name_body env title s)

/-- Body of `PostmanSetting._update_postman_collection` (postman_setting.py,
lines 161-218): GET the collection once; on non-200 log and return; merge
the new items into the fetched top-level children; PUT the whole reconciled
item list back once; log a failed PUT, report a successful one. -/
def update_collection_body (env : SyncEnv) (collection_items : List PTree)
    (s : SyncState) : SyncState × Except String Unit :=
  match do_get env s with
  | (s, Except.error e) => (s, Except.error e)
  | (s, Except.ok resp) =>
    if resp.status ≠ 200 then
      (log_error ("Failed to fetch collection: " ++ resp.text) s, Except.ok ())
    else
      let final_items :=
        merge_collection_items_fast resp.collection_items collection_items
      match do_put env final_items s with
      | (s, Except.error e) => (s, Except.error e)
      | (s, Except.ok upd) =>
        if ¬ (upd.status = 200 ∨ upd.status = 201) then
          (log_error ("Failed to update collection: " ++ upd.text) s, Except.ok ())
        else
          (msgprint ("Updated Postman collection with "
              ++ toString collection_items.length ++ " folders") s,
           Except.ok ())

def update_postman_collection (env : SyncEnv) (collection_items : List PTree)
    (s : SyncState) : SyncState × Except String Unit :=
  try_log "Error updating Postman collection: "
    (update_collection_body env collection_items s)

/-- Body of `PostmanSetting.create_postman_collection_items`
(postman_setting.py, lines 71-159): optionally update the collection name
(truthy collection_title), build the folder list for this generator, then
run the whole-collection update. -/
def create_collection_items_body (env : SyncEnv) (g : ApiGen) (s : SyncState) :
    SyncState × Except String Unit :=
  let s :=
    match g.collection_title with
    | some title =>
      if title ≠ "" then (update_postman_collection_name env title s).1 else s
    | none => s
  match build_collection_items_fast g with
  | Except.error e => (s, Except.error e)
  | Except.ok items => update_postman_collection env items s

def create_postman_collection_items (env : SyncEnv) (g : ApiGen)
    (s : SyncState) : SyncState × Except String Unit :=
  try_log "Error creating Postman collection items: "
    (create_collection_items_body env g s)

/-- Body of `PostmanSetting.sync_single_api_generator_optimized`
(postman_setting.py, lines 261-324): one GET, an in-memory rename and
build, one merge, one PUT — at most two remote calls. -/
def sync_single_optimized_body (env : SyncEnv) (g : ApiGen) (s : SyncState) :
    SyncState × Except String Unit :=
  match do_get env s with
  | (s, Except.error e) => (s, Except.error e)
  | (s, Except.ok resp) =>
    if resp.status ≠ 200 then
      (log_error ("Failed to fetch collection: " ++ resp.text) s, Except.ok ())
    else
      match build_collection_items_fast g with
      | Except.error e => (s, Except.error e)
      | Except.ok new_items =>
        let final_items :=
          merge_collection_items_fast resp.collection_items new_items
        match do_put env final_items s with
        | (s, Except.error e) => (s, Except.error e)
        | (s, Except.ok upd) =>
          if ¬ (upd.status = 200 ∨ upd.status = 201) then
            (log_error ("Failed to update collection: " ++ upd.text) s,
             Except.ok ())
          else
            (msgprint ("Optimized sync complete: "
                ++ toString new_items.length
                ++ " folders updated in 2 API calls") s,
             Except.ok ())

def sync_single_api_generator_optimized (env : SyncEnv) (g : ApiGen)
    (s : SyncState) : SyncState × Except String Unit :=
  try_log "Error in optimized sync: " (sync_single_optimized_body env g s)

/-- Body of `PostmanSetting.sync_to_postman` (postman_setting.py, lines
42-69): fetch the active generators, run the per-generator collection
update for each, then save and report. -/
def sync_to_postman_body (env : SyncEnv) (s : SyncState) :
    SyncState × Except String Unit :=
  match env.generators with
  | Except.error e => (s, Except.error e)
  | Except.ok gens =>
    let s := gens.foldl (fun s g => (create_postman_collection_items env g s).1) s
    match env.save_res with
    | Except.error e => (s, Except.error e)
    | Except.ok _ => (msgprint "Successfully synced APIs to Postman" s, Except.ok ())

/-- `PostmanSetting.sync_to_postman`: a no-op unless auto sync is enabled;
its handler logs the error and then re-raises a user-facing one
(frappe.throw), unlike every other sync step. -/
def sync_to_postman (env : SyncEnv) (enable_auto_sync : Bool) (s : SyncState) :
    SyncState × Except String Unit :=
  if ¬ enable_auto_sync then (s, Except.ok ())
  else
    match sync_to_postman_body env s with
    | (s, Except.ok u) => (s, Except.ok u)
    | (s, Except.error e) =>
      (log_error ("Postman sync error: " ++ e) s,
       Except.error ("Failed to sync to Postman: " ++ e))

/-- A minimal active Single DocType generator with no collection title. -/
def sample_gen (n : String) : ApiGen :=
  ⟨n, "Single DocType", none, none, ApiEndpoints.single []⟩

/-- An environment where every remote call succeeds with status 200 and two
generators are active. -/
def env_two_gens : SyncEnv :=
  ⟨fun _ => Except.ok ⟨200, "", []⟩,
   Except.ok [sample_gen "Customer", sample_gen "Invoice"],
   Except.ok ()⟩

/-- C2 counterexample: a sync-all over two active generators issues four
remote calls (GET, PUT, GET, PUT — two per generator), not two. -/
theorem sync_two_remote_calls_counterexample :
    env_two_gens.generators
      = Except.ok [sample_gen "Customer", sample_gen "Invoice"]
    ∧ (sync_to_postman env_two_gens true init_state).1.calls.length = 4
    ∧ ((sync_to_postman env_two_gens true init_state).1.calls.length = 2 → False) := by
  refine ⟨rfl, rfl, ?_⟩
  intro h
  rw [show (sync_to_postman env_two_gens true init_state).1.calls.length = 4
    from rfl] at h
  exact absurd h (by decide)

lemma update_collection_body_calls (env : SyncEnv) (items : List PTree)
    (s : SyncState) :
    (update_collection_body env items s).1.calls.length ≤ s.calls.length + 2 := by
  unfold update_collection_body do_get do_put
  cases h : env.http s.calls.length with
  | error e => simp [h]
  | ok resp =>
    simp only [h]
    by_cases hst : resp.status ≠ 200
    · simp [hst, log_error]
    · simp only [hst, if_false]
      cases h2 : env.http (s.calls ++ [RemoteCall.get]).length with
      | error e => simp [h2]
      | ok upd =>
        simp only [h2]
        by_cases hup : ¬ (upd.status = 200 ∨ upd.status = 201) <;>
          simp [hup, log_error, msgprint]

lemma try_log_calls (tag : String) (r : SyncState × Except String Unit) :
    (try_log tag r).1.calls = r.1.calls := by
  rcases r with ⟨s, u⟩
  cases u <;> simp [try_log, log_error]

lemma sync_single_optimized_body_calls (env : SyncEnv) (g : ApiGen)
    (s : SyncState) :
    (sync_single_optimized_body env g s).1.calls.length ≤ s.calls.length + 2 := by
  unfold sync_single_optimized_body do_get do_put
  cases h : env.http s.calls.length with
  | error e => simp [h]
  | ok resp =>
    simp only [h]
    by_cases hst : resp.status ≠ 200
    · simp [hst, log_error]
    · simp only [hst, if_false]
      cases hb : build_collection_items_fast g with
      | error e => simp [hb]
      | ok new_items =>
        simp only [hb]
        cases h2 : env.http (s.calls ++ [RemoteCall.get]).length with
        | error e => simp [h2]
        | ok upd =>
          simp only [h2]
          by_cases hup : ¬ (upd.status = 200 ∨ upd.status = 201) <;>
            simp [hup, log_error, msgprint]

lemma update_collection_calls_exact (env : SyncEnv) (items : List PTree)
    (s : SyncState)
    (hok : ∀ n, ∃ r, env.http n = Except.ok r ∧ r.status = 200) :
    (update_postman_collection env items s).1.calls.length
      = s.calls.length + 2 := by
  obtain ⟨r1, h1, hs1⟩ := hok s.calls.length
  obtain ⟨r2, h2, hs2⟩ := hok (s.calls.length + 1)
  unfold update_postman_collection
  rw [try_log_calls]
  unfold update_collection_body do_get do_put
  simp only [h1, hs1]
  have h2' : env.http (s.calls ++ [RemoteCall.get]).length = Except.ok r2 := by
    simpa using h2
  simp only [List.length_append, List.length_cons, List.length_nil, h2]
  simp [hs2, msgprint]

lemma create_calls_exact (env : SyncEnv) (g : ApiGen) (s : SyncState)
    (htitle : g.collection_title = none)
    (hwf : ∃ items, build_collection_items_fast g = Except.ok items)
    (hok : ∀ n, ∃ r, env.http n = Except.ok r ∧ r.status = 200) :
    (create_postman_collection_items env g s).1.calls.length
      = s.calls.length + 2 := by
  obtain ⟨items, hb⟩ := hwf
  unfold create_postman_collection_items
  rw [try_log_calls]
  unfold create_collection_items_body
  simp only [htitle, hb]
  exact update_collection_calls_exact env items s hok

lemma sync_foldl_calls (env : SyncEnv)
    (hok : ∀ n, ∃ r, env.http n = Except.ok r ∧ r.status = 200) :
    ∀ (gens : List ApiGen) (s : SyncState),
      (∀ g ∈ gens, g.collection_title = none) →
      (∀ g ∈ gens, ∃ items, build_collection_items_fast g = Except.ok items) →
      (gens.foldl (fun s g => (create_postman_collection_items env g s).1)
          s).calls.length
        = s.calls.length + 2 * gens.length := by
  intro gens
  induction gens with
  | nil => intro s _ _; simp
  | cons g rest ih =>
    intro s htitle hwf
    simp only [List.foldl_cons, List.length_cons]
    rw [ih _ (fun x hx => htitle x (List.mem_cons_of_mem g hx))
          (fun x hx => hwf x (List.mem_cons_of_mem g hx)),
        create_calls_exact env g s (htitle g (List.mem_cons_self g rest))
          (hwf g (List.mem_cons_self g rest)) hok]
    ring

/-- C2 amended: the two-call bound is per generator, not per sync-all.  The
per-generator optimized sync and the per-generator collection update each
issue at most two remote calls; a sync-all over N active generators (no
collection titles, well-formed payloads, every remote call answering 200)
issues exactly 2·N remote calls. -/
theorem sync_remote_calls_spec :
    (∀ (env : SyncEnv) (g : ApiGen) (s : SyncState),
        (sync_single_api_generator_optimized env g s).1.calls.length
          ≤ s.calls.length + 2)
    ∧ (∀ (env : SyncEnv) (items : List PTree) (s : SyncState),
        (update_postman_collection env items s).1.calls.length
          ≤ s.calls.length + 2)
    ∧ (∀ (env : SyncEnv) (gens : List ApiGen) (s : SyncState),
        env.generators = Except.ok gens →
        (∀ g ∈ gens, g.collection_title = none) →
        (∀ g ∈ gens, ∃ items, build_collection_items_fast g = Except.ok items) →
        (∀ n, ∃ r, env.http n = Except.ok r ∧ r.status = 200) →
        (sync_to_postman env true s).1.calls.length
          = s.calls.length + 2 * gens.length) := by
  refine ⟨?_, ?_, ?_⟩
  · intro env g s
    unfold sync_single_api_generator_optimized
    rw [try_log_calls]
    exact sync_single_optimized_body_calls env g s
  · intro env items s
    unfold update_postman_collection
    rw [try_log_calls]
    exact update_collection_body_calls env items s
  · intro env gens s hgen htitle hwf hok
    have hfold := sync_foldl_calls env hok gens s htitle hwf
    unfold sync_to_postman sync_to_postman_body
    rw [if_neg (by simp)]
    simp only [hgen]
    cases hsave : env.save_res with
    | error e => simp [hsave, log_error, hfold]
    | ok u => simp [hsave, msgprint, hfold]

/-- An environment where every remote call succeeds with status 200 and one
generator is active. -/
def env_one_gen : SyncEnv :=
  ⟨fun _ => Except.ok ⟨200, "", []⟩, Except.ok [sample_gen "Customer"],
   Except.ok ()⟩

theorem sync_remote_calls_spec_witness :
    (sync_to_postman env_one_gen true init_state).1.calls.length = 2 := by
  have h := sync_remote_calls_spec.2.2 env_one_gen [sample_gen "Customer"]
    init_state rfl
    (by intro g hg; simp only [List.mem_singleton] at hg; subst hg; rfl)
    (by intro g hg; simp only [List.mem_singleton] at hg; subst hg;
        exact ⟨_, rfl⟩)
    (fun n => ⟨⟨200, "", []⟩, rfl, rfl⟩)
  simpa using h

lemma try_log_res (tag : String) (r : SyncState × Except String Unit) :
    (try_log tag r).2 = Except.ok () := by
  rcases r with ⟨s, u⟩
  cases u with
  | error e => rfl
  | ok u => cases u; rfl

/-- C8: every sync step swallows remote failures — the collection update,
the per-generator item creation and the per-generator optimized sync always
return without raising, logging a raised GET (for example a timeout) or a
non-200 GET with the step it occurred at — while the top-level
sync_to_postman entrypoint logs an error raised inside it and then
re-raises it to its caller. -/
theorem sync_error_handling :
    (∀ (env : SyncEnv) (items : List PTree) (s : SyncState),
        (update_postman_collection env items s).2 = Except.ok ())
    ∧ (∀ (env : SyncEnv) (g : ApiGen) (s : SyncState),
        (create_postman_collection_items env g s).2 = Except.ok ())
    ∧ (∀ (env : SyncEnv) (g : ApiGen) (s : SyncState),
        (sync_single_api_generator_optimized env g s).2 = Except.ok ())
    ∧ (∀ (env : SyncEnv) (items : List PTree) (s : SyncState) (e : String),
        env.http s.calls.length = Except.error e →
        (update_postman_collection env items s).1.logs
          = s.logs ++ ["Error updating Postman collection: " ++ e])
    ∧ (∀ (env : SyncEnv) (items : List PTree) (s : SyncState) (r : HttpResult),
        env.http s.calls.length = Except.ok r → r.status ≠ 200 →
        (update_postman_collection env items s).1.logs
          = s.logs ++ ["Failed to fetch collection: " ++ r.text])
    ∧ (∀ (env : SyncEnv) (s : SyncState) (e : String),
        env.generators = Except.error e →
        sync_to_postman env true s
          = (log_error ("Postman sync error: " ++ e) s,
             Except.error ("Failed to sync to Postman: " ++ e))) := by
  refine ⟨?_, ?_, ?_, ?_, ?_, ?_⟩
  · intro env items s
    exact try_log_res _ _
  · intro env g s
    exact try_log_res _ _
  · intro env g s
    exact try_log_res _ _
  · intro env items s e h
    unfold update_postman_collection update_collection_body do_get
    simp [h, try_log, log_error]
  · intro env items s r h hst
    unfold update_postman_collection update_collection_body do_get
    simp [h, hst, try_log, log_error]
  · intro env s e h
    unfold sync_to_postman sync_to_postman_body
    rw [if_neg (by simp)]
    simp [h]

/-- An environment where the collection GET raises a timeout and the
generator fetch raises. -/
def env_get_timeout : SyncEnv :=
  ⟨fun _ => Except.error "ReadTimeout", Except.error "DoesNotExistError",
   Except.ok ()⟩

theorem sync_error_handling_witness :
    (update_postman_collection env_get_timeout [] init_state).2 = Except.ok ()
    ∧ (update_postman_collection env_get_timeout [] init_state).1.logs
        = ["Error updating Postman collection: ReadTimeout"]
    ∧ (sync_to_postman env_get_timeout true init_state).2
        = Except.error "Failed to sync to Postman: DoesNotExistError" := by
  refine ⟨sync_error_handling.1 env_get_timeout [] init_state, ?_, ?_⟩
  · have h := sync_error_handling.2.2.2.1 env_get_timeout [] init_state
      "ReadTimeout" rfl
    simpa [init_state] using h
  · have h := sync_error_handling.2.2.2.2.2 env_get_timeout init_state
      "DoesNotExistError" rfl
    rw [h]
    simp

/-- An ASCII whitespace character, as stripped by Python str.strip(). -/
def isSpaceChar (c : Char) : Bool :=
  c = ' ' || c = '\t' || c = '\n' || c = '\r'

/-- Python `line.strip()`: remove leading and trailing whitespace. -/
def pyStrip (s : String) : String :=
  String.mk (((s.data.dropWhile isSpaceChar).reverse.dropWhile isSpaceChar).reverse)

/-- Python `s.startswith(pat)`. -/
def pyStartsWith (s pat : String) : Bool :=
  pat.data.isPrefixOf s.data

/-- Python `s.split(sep)` for a non-empty separator, by fuel-bounded
left-to-right scanning (fuel starts at the string length, an upper bound on
the number of steps). -/
def splitOnGo (sep : List Char) : Nat → List Char → List Char → List (List Char)
  | _, [], acc => [acc.reverse]
  | 0, l, acc => [acc.reverse ++ l]
  | Nat.succ fuel, c :: rest, acc =>
    if sep ≠ [] ∧ sep.isPrefixOf (c :: rest) then
      acc.reverse :: splitOnGo sep fuel ((c :: rest).drop sep.length) []
    else
      splitOnGo sep fuel rest (c :: acc)

def pySplit (s sep : String) : List String :=
  (splitOnGo sep.data s.data.length s.data []).map String.mk

/-- The remote-callable marker test of `scan_file_for_whitelisted_methods`
(whitelist_scanner.py, line 199): the line contains "@frappe.whitelist" or
"@whitelist". -/
def is_marker_line (line : String) : Bool :=
  strContains line "@frappe.whitelist" || strContains line "@whitelist"

/-- `func_line.split("def ")[1].split("(")[0]` (whitelist_scanner.py,
line 204). -/
def extract_func_name (func_line : String) : String :=
  (pySplit ((pySplit func_line "def ").getD 1 "") "(").headD ""

/-- The inner loop of the scanner (whitelist_scanner.py, lines 201-220):
`for j in range(i + 1, min(i + 5, len(lines)))`, stopping at the first
stripped line that starts with "def " — called with fuel 4 from j = i + 1. -/
def scan_window (lines : List String) : Nat → Nat → Option String
  | _, 0 => none
  | j, Nat.succ fuel =>
    if h : j < lines.length then
      let func_line := pyStrip (lines.get ⟨j, h⟩)
      if pyStartsWith func_line "def " then some (extract_func_name func_line)
      else scan_window lines (j + 1) fuel
    else none

/-- The outer `for i, line in enumerate(lines)` loop of the scanner: each
marker line records at most the one method found by the window scan.  The
recorded entry is embedded as (marker line index, function name); the
path/source/description fields of the recorded dict are all derived from
the function name and the file context. -/
def scan_file_go (lines : List String) : Nat → List String → List (Nat × String)
  | _, [] => []
  | i, line :: rest =>
    if is_marker_line line then
      match scan_window lines (i + 1) 4 with
      | some n => (i, n) :: scan_file_go lines (i + 1) rest
      | none => scan_file_go lines (i + 1) rest
    else scan_file_go lines (i + 1) rest

/-- `scan_file_for_whitelisted_methods` (whitelist_scanner.py, lines
186-227), as the list of (marker line index, recorded function name). -/
def scan_file_for_whitelisted_methods (lines : List String) : List (Nat × String) :=
  scan_file_go lines 0 lines

/-- Declarative description of the window scan, used to state the claim:
the first line among the four following the marker whose stripped text
starts with "def ", if any, gives the recorded name. -/
def first_def_in_window (lines : List String) (i : Nat) : Option String :=
  ((List.range' (i + 1) 4).find?
      (fun k => pyStartsWith (pyStrip (lines.getD k "")) "def ")).map
    (fun k => extract_func_name (pyStrip (lines.getD k "")))

lemma scan_window_eq (lines : List String) :
    ∀ (fuel j : Nat),
      scan_window lines j fuel
        = ((List.range' j fuel).find?
            (fun k => pyStartsWith (pyStrip (lines.getD k "")) "def ")).map
            (fun k => extract_func_name (pyStrip (lines.getD k ""))) := by
  intro fuel
  induction fuel with
  | zero => intro j; rfl
  | succ fuel ih =>
    intro j
    rw [show List.range' j (fuel + 1) = j :: List.range' (j + 1) fuel from rfl]
    by_cases h : j < lines.length
    · have hget : lines.getD j "" = lines.get ⟨j, h⟩ := List.getD_eq_get lines "" h
      by_cases hs : pyStartsWith (pyStrip (lines.get ⟨j, h⟩)) "def " = true
      · rw [List.find?_cons_of_pos _ (by rw [hget]; exact hs)]
        simp only [scan_window, dif_pos h, hs, if_true, Option.map]
        rw [hget]
      · rw [List.find?_cons_of_neg _ (by rw [hget]; exact hs)]
        simp only [scan_window, dif_pos h, hs, if_false]
        exact ih (j + 1)
    · have hge : lines.length ≤ j := Nat.le_of_not_lt h
      have hdef : lines.getD j "" = "" := List.getD_eq_default lines "" hge
      rw [List.find?_cons_of_neg _ (by rw [hdef]; decide)]
      have hnone : (List.range' (j + 1) fuel).find?
          (fun k => pyStartsWith (pyStrip (lines.getD k "")) "def ") = none := by
        rw [List.find?_eq_none]
        intro k hk
        have hk1 : j + 1 ≤ k := (List.mem_range'_1.mp hk).1
        have hkd : lines.getD k "" = "" :=
          List.getD_eq_default lines "" (le_trans hge (Nat.le_of_succ_le hk1))
        rw [hkd]
        decide
      rw [hnone]
      simp only [scan_window, dif_neg h, Option.map]


lemma scan_file_go_eq (lines : List String) :
    ∀ (suffix : List String) (i : Nat), lines.drop i = suffix →
      scan_file_go lines i suffix
        = (List.range' i suffix.length).filterMap (fun j =>
            if is_marker_line (lines.getD j "") = true then
              (first_def_in_window lines j).map (fun n => (j, n))
            else none) := by
  intro suffix
  induction suffix with
  | nil => intro i _; rfl
  | cons line rest ih =>
    intro i hdrop
    have hget : lines.get? i = some line := by
      have h := List.get?_drop lines i 0
      rw [hdrop] at h
      simpa using h.symm
    have hline : lines.getD i "" = line := by
      rw [show lines.getD i "" = (lines.get? i).getD "" from rfl, hget]
      rfl
    have hrest : lines.drop (i + 1) = rest := by
      rw [← List.tail_drop, hdrop]
      rfl
    have hr := ih (i + 1) hrest
    rw [show List.range' i (line :: rest).length
        = i :: List.range' (i + 1) rest.length from rfl,
      List.filterMap_cons]
    have hwin : scan_window lines (i + 1) 4 = first_def_in_window lines i :=
      scan_window_eq lines 4 (i + 1)
    by_cases hm : is_marker_line line = true
    · simp only [hline, hm, if_true]
      cases hw : first_def_in_window lines i with
      | none =>
        rw [show scan_file_go lines i (line :: rest)
            = scan_file_go lines (i + 1) rest from by
          rw [scan_file_go, if_pos hm, hwin, hw]]
        rw [hr]
        simp
      | some n =>
        rw [show scan_file_go lines i (line :: rest)
            = (i, n) :: scan_file_go lines (i + 1) rest from by
          rw [scan_file_go, if_pos hm, hwin, hw]]
        rw [hr]
        simp
    · simp only [hline, hm, if_false]
      rw [show scan_file_go lines i (line :: rest)
          = scan_file_go lines (i + 1) rest from by
        rw [scan_file_go, if_neg hm]]
      exact hr

lemma filterMap_fst_once (f : Nat → Option (Nat × String))
    (hf : ∀ j p, f j = some p → p.1 = j) :
    ∀ (l : List Nat), l.Nodup → ∀ i,
      ((l.filterMap f).filter (fun p => p.1 = i)).length ≤ 1 := by
  intro l
  induction l with
  | nil => intro _ i; simp
  | cons a rest ih =>
    intro hnd i
    have hnotmem : a ∉ rest := (List.nodup_cons.mp hnd).1
    have hndr : rest.Nodup := (List.nodup_cons.mp hnd).2
    rw [List.filterMap_cons]
    cases hfa : f a with
    | none => exact ih hndr i
    | some p =>
      rw [List.filter_cons]
      by_cases hpi : p.1 = i
      · have hrest0 : ((rest.filterMap f).filter (fun q => q.1 = i)).length = 0 := by
          rw [List.length_eq_zero]
          rw [List.filter_eq_nil_iff]
          intro q hq
          obtain ⟨j, hj, hfj⟩ := List.mem_filterMap.mp hq
          have : q.1 = j := hf j q hfj
          simp only [decide_eq_true_eq]
          intro hqi
          rw [hqi] at this
          rw [← hpi] at this
          rw [hf a p hfa] at this
          exact hnotmem (this ▸ hj)
        rw [if_pos (by simp [hpi])]
        simp [hrest0]
      · rw [if_neg (by simp [hpi])]
        exact ih hndr i

/-- C9: the file scanner returns, for each line index carrying the
remote-callable marker, at most one recorded method — the one named by the
first function-definition line within the next four lines — and nothing
when no function definition occurs in that window; every recorded entry
comes from a marker line whose window scan found that first definition. -/
theorem scan_file_for_whitelisted_methods_spec (lines : List String) :
    scan_file_for_whitelisted_methods lines
      = (List.range lines.length).filterMap (fun j =>
          if is_marker_line (lines.getD j "") = true then
            (first_def_in_window lines j).map (fun n => (j, n))
          else none)
    ∧ (∀ i, ((scan_file_for_whitelisted_methods lines).filter
          (fun p => p.1 = i)).length ≤ 1)
    ∧ (∀ i name, (i, name) ∈ scan_file_for_whitelisted_methods lines →
        is_marker_line (lines.getD i "") = true
        ∧ first_def_in_window lines i = some name) := by
  have hchar : scan_file_for_whitelisted_methods lines
      = (List.range lines.length).filterMap (fun j =>
          if is_marker_line (lines.getD j "") = true then
            (first_def_in_window lines j).map (fun n => (j, n))
          else none) := by
    rw [scan_file_for_whitelisted_methods,
      scan_file_go_eq lines lines 0 (List.drop_zero lines),
      List.range_eq_range' lines.length]
  have hf : ∀ j (p : Nat × String),
      (if is_marker_line (lines.getD j "") = true then
        (first_def_in_window lines j).map (fun n => (j, n))
      else none) = some p → p.1 = j := by
    intro j p hp
    by_cases hm : is_marker_line (lines.getD j "") = true
    · rw [if_pos hm] at hp
      cases hw : first_def_in_window lines j with
      | none => rw [hw] at hp; exact absurd hp (by simp)
      | some n =>
        rw [hw] at hp
        simp only [Option.map] at hp
        cases hp
        rfl
    · rw [if_neg hm] at hp
      exact absurd hp (by simp)
  refine ⟨hchar, ?_, ?_⟩
  · intro i
    rw [hchar]
    exact filterMap_fst_once _ hf (List.range lines.length)
      (List.nodup_range lines.length) i
  · intro i name hmem
    rw [hchar] at hmem
    obtain ⟨j, hj, hfj⟩ := List.mem_filterMap.mp hmem
    have hij : i = j := by
      have := hf j (i, name) hfj
      exact this
    subst hij
    by_cases hm : is_marker_line (lines.getD i "") = true
    · rw [if_pos hm] at hfj
      refine ⟨hm, ?_⟩
      cases hw : first_def_in_window lines i with
      | none => rw [hw] at hfj; exact absurd hfj (by simp)
      | some n =>
        rw [hw] at hfj
        simp only [Option.map] at hfj
        cases hfj
        rfl
    · rw [if_neg hm] at hfj
      exact absurd hfj (by simp)

/-- Lines of a small controller file: a marker followed by a function
definition on the next line, and a second marker whose four-line window
contains no function definition (the next def is five lines further on). -/
def sample_lines : List String :=
  ["import frappe", "",
   "@frappe.whitelist()", "def ping(a, b):", "    return a",
   "@frappe.whitelist()", "# helper section", "", "", "",
   "def far_away():"]

theorem scan_file_for_whitelisted_methods_spec_witness :
    scan_file_for_whitelisted_methods sample_lines = [(2, "ping")]
    ∧ is_marker_line (sample_lines.getD 2 "") = true
    ∧ first_def_in_window sample_lines 2 = some "ping"
    ∧ ((scan_file_for_whitelisted_methods sample_lines).filter
        (fun p => p.1 = 5)).length ≤ 1 := by
  have h3 := (scan_file_for_whitelisted_methods_spec sample_lines).2.2 2 "ping"
    (by rw [show scan_file_for_whitelisted_methods sample_lines
        = [(2, "ping")] from rfl]; simp)
  exact ⟨rfl, h3.1, h3.2,
    (scan_file_for_whitelisted_methods_spec sample_lines).2.1 5⟩
